import Mathlib

/-
Verification of the jitlog trace-forest model (jitlog/objects.py).

The definitions below are a shallow embedding of the Python source.
Byte strings are modelled as List Nat, machine integers as Int, and
Python dictionaries as association lists with first-match lookup and
in-place replacement on update (matching CPython dict semantics for
the operations the code performs).  Python exceptions are modelled by
an explicit error type: a mutating method returns the state it has
produced so far together with an optional error.
-/

/-- Clamp an (possibly negative) Python slice index for a sequence of
length n, exactly as CPython does for s[:k] and s[k:]. -/
def pySliceIdx (n : Nat) (k : Int) : Nat :=
  if k < 0 then (k + n).toNat
  else if (n : Int) < k then n else k.toNat

/-- Python s[:k] on a list, with CPython index clamping. -/
def pyTake (l : List α) (k : Int) : List α :=
  l.take (pySliceIdx l.length k)

/-- Python s[k:] on a list, with CPython index clamping. -/
def pyDrop (l : List α) (k : Int) : List α :=
  l.drop (pySliceIdx l.length k)

/-- A memory patch recorded by TraceForest.patch_memory: the tuple
(timeval, addr, content) appended to forest.patches. -/
structure Patch where
  time : Int
  addr : Int
  content : List Nat
  deriving DecidableEq, Repr

/-- patch_start as computed inside FlatOp.get_core_dump:
(addr - base_addr) - op_off. -/
def patchStart (base_addr op_off : Int) (p : Patch) : Int :=
  (p.addr - base_addr) - op_off

/-- One iteration of the loop body of FlatOp.get_core_dump: apply a
single patch to the current coredump buffer (or skip it when the
requested time lies before the patch time). -/
def apply_patch (base_addr op_off timeval : Int) (coredump : List Nat)
    (p : Patch) : List Nat :=
  if timeval < p.time then coredump
  else
    let patch_start := patchStart base_addr op_off p
    let patch_end := patch_start + (p.content.length : Int)
    let content_end := (p.content.length : Int) - 1
    if (coredump.length : Int) ≤ patch_end then
      pyTake coredump patch_start ++
        pyTake p.content ((coredump.length : Int) - patch_start) ++
        pyDrop coredump (coredump.length : Int)
    else
      pyTake coredump patch_start ++
        pyTake p.content content_end ++
        pyDrop coredump patch_end

/-- FlatOp.get_core_dump: starting from a copy of the raw captured
bytes (core_dump is the pair (rel_pos, raw_bytes)), fold every patch
over the buffer in list order. -/
def FlatOp_get_core_dump (core_dump : Int × List Nat) (base_addr : Int)
    (patches : List Patch) (timeval : Int) : List Nat :=
  patches.foldl (apply_patch base_addr core_dump.1 timeval) core_dump.2

/-- Trace type: Trace.__init__ asserts the type is loop or bridge. -/
inductive TraceType where
  | loop
  | bridge
  deriving DecidableEq, Repr

/-- Stage names produced by Trace.start_mark. -/
inductive StageName where
  | noopt
  | opt
  | asm
  deriving DecidableEq, Repr

/-- An operation record in a stage.  Only the fields consulted by the
core-dump reconstruction are modelled: is_debug distinguishes a
MergePoint (filtered out by Stage.get_ops), and core_dump is the
optional (rel_pos, raw_bytes) fragment set by set_core_dump. -/
structure OpR where
  is_debug : Bool := false
  core_dump : Option (Int × List Nat) := none
  deriving DecidableEq, Repr

/-- Association-list lookup with first-match semantics, the model of
a Python dict read (d.get(k) / k in d). -/
def lookupD [DecidableEq κ] : List (κ × α) → κ → Option α
  | [], _ => none
  | p :: rest, k => if p.1 = k then some p.2 else lookupD rest k

/-- Association-list write, the model of d[k] = v: replace the first
binding of k in place, or append a fresh binding. -/
def insertD [DecidableEq κ] : List (κ × α) → κ → α → List (κ × α)
  | [], k, v => [(k, v)]
  | p :: rest, k, v => if p.1 = k then (k, v) :: rest else p :: insertD rest k v

/-- In-place mutation of the object stored under a key, the model of
mutating an attribute of the object a dict entry points to. -/
def updateD [DecidableEq κ] (l : List (κ × α)) (k : κ) (f : α → α) : List (κ × α) :=
  l.map (fun p => if p.1 = k then (p.1, f p.2) else p)

/-- A Trace object.  stamp is set by TraceForest.add_trace, addrs by
set_addr_bounds (default (-1,-1) means not assembled), descr_nmr is 0
until the trace is stitched as a bridge, parent and bridges are the
stitch links (represented by unique ids), point_counters is filled by
PointInTrace.add_up_enter_count, and stages holds the per-stage
operation lists. -/
structure TraceR where
  unique_id : Nat
  ttype : TraceType
  tick : Int := 0
  stamp : Nat := 0
  addrs : Int × Int := (-1, -1)
  descr_nmr : Int := 0
  parent : Option Nat := none
  bridges : List Nat := []
  counter : Int := 0
  point_counters : List (Nat × Int) := []
  stages : List (StageName × List OpR) := []
  deriving DecidableEq, Repr

/-- Trace.contains_patch: inclusive bounds check against addrs. -/
def TraceR.contains_patch (t : TraceR) (addr : Int) : Bool :=
  decide (t.addrs.1 ≤ addr ∧ addr ≤ t.addrs.2)

/-- Errors raised by the Python code, modelled explicitly. -/
inductive PyErr where
  | notImplemented
  | assertionFailed
  | attributeOfNone
  | typeMismatch
  deriving DecidableEq, Repr

/-- Trace.get_core_dump.  A timeval of -1 is replaced by 2^31-1; the
relevant patches are those of the forest whose address the trace
contains; when the second slice component is -1 the code sets
end = len(opslice), which is the length of the 2-tuple, i.e. 2; the
non-debug ops of the asm stage are enumerated and those with index in
[start, end] have their dumps reconstructed and concatenated.  The
ok none result models the Python return value None (no asm stage);
an error models the TypeError raised when a selected op has no dump. -/
def Trace_get_core_dump (t : TraceR) (forest_patches : List Patch)
    (timeval0 : Int) (opslice : Int × Int) : Except PyErr (Option (List Nat)) :=
  let timeval := if timeval0 = -1 then 2 ^ 31 - 1 else timeval0
  let my_patches := forest_patches.filter (fun p => t.contains_patch p.addr)
  let start := opslice.1
  let e := if opslice.2 = -1 then (2 : Int) else opslice.2
  match lookupD t.stages StageName.asm with
  | none => .ok none
  | some ops =>
      let sel := (((ops.filter (fun o => !o.is_debug)).enum).filter
        (fun io => decide (start ≤ (io.1 : Int) ∧ (io.1 : Int) ≤ e))).map Prod.snd
      if sel.all (fun o => o.core_dump.isSome) then
        .ok (some ((sel.filterMap (fun o => o.core_dump)).map
          (fun cd => FlatOp_get_core_dump cd t.addrs.1 my_patches timeval)).flatten)
      else .error .typeMismatch

/-- A PointInTrace: the owning trace (by unique id), the index of the
label op it was created from, and the optional increment op index
attached by set_inc_op. -/
structure PointR where
  trace : Nat
  op_index : Nat := 0
  inc_op : Option Nat := none
  deriving DecidableEq, Repr

/-- The TraceForest state: the trace registry, the address index, the
stitch table, the descr-to-PointInTrace map, the global patch log and
the logical clock. -/
structure ForestR where
  traces : List (Nat × TraceR) := []
  addrs : List (Int × Nat) := []
  stitches : List (Int × Nat) := []
  points : List (Int × PointR) := []
  patches : List Patch := []
  timepos : Int := 0
  last_trace : Option Nat := none
  deriving DecidableEq, Repr

/-- TraceForest.add_trace: build a Trace at the current clock, stamp
it with the current trace count, register it (a duplicate unique_id
silently replaces the previous binding) and remember it as the last
trace.  The trace_nmr argument is accepted and ignored, as in the
source. -/
def ForestR.add_trace (s : ForestR) (trace_type : TraceType) (unique_id : Nat)
    (trace_nmr : Int) : ForestR × TraceR :=
  let _ := trace_nmr
  let trace : TraceR :=
    { unique_id := unique_id, ttype := trace_type, tick := s.timepos,
      stamp := s.traces.length }
  ({ s with traces := insertD s.traces unique_id trace,
            last_trace := some unique_id }, trace)

/-- Trace.set_addr_bounds: first overwrite the traces own addrs field,
then test whether the start address is already a key of the forest
address index; if so raise NotImplementedError (the index is left
unchanged), otherwise register the trace under the start address. -/
def ForestR.set_addr_bounds (s : ForestR) (tid : Nat) (a b : Int) :
    ForestR × Option PyErr :=
  let s1 := { s with traces := updateD s.traces tid (fun t => { t with addrs := (a, b) }) }
  if (lookupD s1.addrs a).isSome then
    (s1, some .notImplemented)
  else
    ({ s1 with addrs := insertD s1.addrs a tid }, none)

/-- TraceForest.patch_memory: append (timeval, addr, content) to the
global patch log. -/
def ForestR.patch_memory (s : ForestR) (addr : Int) (content : List Nat)
    (timeval : Int) : ForestR :=
  { s with patches := s.patches ++ [⟨timeval, addr, content⟩] }

/-- TraceForest.time_tick: advance the logical clock. -/
def ForestR.time_tick (s : ForestR) : ForestR :=
  { s with timepos := s.timepos + 1 }

/-- TraceForest.stitch_bridge: resolve the trace at addr_to (an absent
address is an attribute error on None), assert it has never been
stitched (descr_nmr must still be 0), store the descr number on it,
record descr -> unique_id in the stitch table, and, when a
PointInTrace is registered for the descr, set the bridge parent to the
owning trace of that point and append the bridge to that parents
bridges list (a missing point is only a warning and succeeds). -/
def ForestR.stitch_bridge (s : ForestR) (descr_number : Int) (addr_to : Int) :
    ForestR × Option PyErr :=
  match lookupD s.addrs addr_to with
  | none => (s, some .attributeOfNone)
  | some bid =>
    match lookupD s.traces bid with
    | none => (s, some .attributeOfNone)
    | some bridge =>
      if bridge.descr_nmr ≠ 0 then (s, some .assertionFailed)
      else
        let tr1 := updateD s.traces bid (fun t => { t with descr_nmr := descr_number })
        let s1 := { s with traces := tr1 }
        let s2 := { s1 with stitches := insertD s1.stitches descr_number bridge.unique_id }
        match lookupD s2.points descr_number with
        | none => (s2, none)
        | some pt =>
          let tr3 := updateD s2.traces bid (fun t => { t with parent := some pt.trace })
          let s3 := { s2 with traces := tr3 }
          let tr4 := updateD s3.traces pt.trace (fun t => { t with bridges := t.bridges ++ [bid] })
          let s4 := { s3 with traces := tr4 }
          (s4, none)

/-- PointInTrace.add_up_enter_count: a point with no increment op
returns False and changes nothing; otherwise the counter stored in the
owning traces point_counters under the increment op index is read with
default 0 and increased by count. -/
def PointR.add_up_enter_count (s : ForestR) (pit : PointR) (count : Int) :
    Bool × ForestR :=
  match pit.inc_op with
  | none => (false, s)
  | some i =>
    match lookupD s.traces pit.trace with
    | none => (true, s)
    | some t =>
      let c := (lookupD t.point_counters i).getD 0
      let t1 := { t with point_counters := insertD t.point_counters i (c + count) }
      (true, { s with traces := insertD s.traces pit.trace t1 })

/-- Stable insertion of an element into a sorted list, used to model
the in-place numbers.sort() call in iter_ranges. -/
def insertSorted (x : Int) : List Int → List Int
  | [] => [x]
  | y :: ys => if x ≤ y then x :: y :: ys else y :: insertSorted x ys

/-- Sorting model for list.sort() on integers. -/
def pysort : List Int → List Int
  | [] => []
  | x :: xs => insertSorted x (pysort xs)

/-- The generator loop of iter_ranges, transcribed with its explicit
enumerate counter pos and the total input length n: on a gap of more
than 50 from the first element of the current span, the span is
yielded; the source then tests pos+1 < len(numbers) and, in the
impossible else branch, stops the generator without the final flush.
Otherwise the current element extends the span.  After the loop the
open span is flushed. -/
def iter_ranges_loop (n : Nat) : List Int → Nat → Int → Int → List (Int × Int) → List (Int × Int)
  | [], _, first, last, acc => acc ++ [(first, last)]
  | i :: rest, pos, first, last, acc =>
    if 50 < i - first then
      if pos + 1 < n then iter_ranges_loop n rest (pos + 1) i i (acc ++ [(first, last)])
      else acc ++ [(first, last)]
    else iter_ranges_loop n rest (pos + 1) first i acc

/-- iter_ranges: an empty input ends the generator at once (the raised
StopIteration terminates it, yielding nothing); otherwise the numbers
are sorted, first and last start at the smallest element, and the loop
walks the remaining elements.  A yielded range(first, last+1) is
represented by the inclusive pair (first, last). -/
def iter_ranges (numbers : List Int) : List (Int × Int) :=
  match pysort numbers with
  | [] => []
  | x :: rest => iter_ranges_loop numbers.length rest 0 x x []

/-- The same coalescing loop without the enumerate bookkeeping: close
the span when the current element is more than 50 above the FIRST
element of the span. -/
def coalesce_from : List Int → Int → Int → List (Int × Int) → List (Int × Int)
  | [], first, last, acc => acc ++ [(first, last)]
  | i :: rest, first, last, acc =>
    if 50 < i - first then coalesce_from rest i i (acc ++ [(first, last)])
    else coalesce_from rest first i acc

/-- Range coalescing measured from the first element of each span. -/
def iter_ranges_firstgap (numbers : List Int) : List (Int × Int) :=
  match pysort numbers with
  | [] => []
  | x :: rest => coalesce_from rest x x []

/-- Modelled from the claim wording: close the span when two
CONSECUTIVE sorted values differ by more than the gap threshold 50.
This is the rule the claim states, used to compare against the code. -/
def coalesce_consecutive : List Int → Int → Int → List (Int × Int) → List (Int × Int)
  | [], first, last, acc => acc ++ [(first, last)]
  | i :: rest, first, last, acc =>
    if 50 < i - last then coalesce_consecutive rest i i (acc ++ [(first, last)])
    else coalesce_consecutive rest first i acc

/-- Modelled from the claim wording: iter_ranges as described by the
claim, closing spans on consecutive gaps above 50. -/
def iter_ranges_consecutive (numbers : List Int) : List (Int × Int) :=
  match pysort numbers with
  | [] => []
  | x :: rest => coalesce_consecutive rest x x []

deriving instance DecidableEq for Except

/-- The single asm instruction of the end-to-end scenario: core dump
bytes 0x90 0x90 0x90 0x90 at relative offset 0. -/
def c1_op : OpR := { core_dump := some (0, [144, 144, 144, 144]) }

/-- The scenario trace: base address 100, one asm instruction. -/
def c1_trace : TraceR :=
  { unique_id := 1, ttype := .loop, addrs := (100, 103), stages := [(.asm, [c1_op])] }

/-- The scenario patch log: one byte 0xCC at the base address, time 5. -/
def c1_patches : List Patch := [⟨5, 100, [204]⟩]

/-- The four asm instructions for the default-slice scenario, with
one-byte dumps 10, 11, 12, 13 at offsets 0..3. -/
def c5_ops : List OpR :=
  [{ core_dump := some (0, [10]) }, { core_dump := some (1, [11]) },
   { core_dump := some (2, [12]) }, { core_dump := some (3, [13]) }]

/-- A trace whose asm stage has four instructions. -/
def c5_trace : TraceR :=
  { unique_id := 2, ttype := .loop, addrs := (100, 110), stages := [(.asm, c5_ops)] }

/-- The trace already registered under unique id 7. -/
def c6_old : TraceR := { unique_id := 7, ttype := .loop, stamp := 0 }

/-- A forest whose registry already holds unique id 7. -/
def c6_state : ForestR := { traces := [(7, c6_old)] }

/-- Two traces not yet assembled, used for the overlap scenario. -/
def c3_state : ForestR :=
  { traces := [(1, { unique_id := 1, ttype := .loop }), (2, { unique_id := 2, ttype := .loop })] }

/-- A forest whose address index already holds start address 100. -/
def c3_wstate : ForestR := { addrs := [(100, 1)] }

/-- A forest with a trace under id 3 and start address 50 taken. -/
def c10_wstate : ForestR :=
  { traces := [(3, { unique_id := 3, ttype := .bridge })], addrs := [(50, 9)] }

/-- The un-stitched bridge trace used by the C7 witness. -/
def c7_wbridge : TraceR := { unique_id := 10, ttype := .bridge }

/-- The parent trace used by the C7 witness. -/
def c7_wparent : TraceR := { unique_id := 11, ttype := .loop }

/-- The C7 witness forest: bridge at address 700, a point for descr 42
owned by trace 11. -/
def c7_wstate : ForestR :=
  { traces := [(10, c7_wbridge), (11, c7_wparent)],
    addrs := [(700, 10)],
    points := [(42, { trace := 11 })] }

/-- The C8 witness forest: one never-stitched bridge at address 900. -/
def c8_wstate : ForestR :=
  { traces := [(5, { unique_id := 5, ttype := .bridge })], addrs := [(900, 5)] }

/-- The trace owning the C9 witness point. -/
def c9_wtrace : TraceR := { unique_id := 4, ttype := .loop }

/-- The C9 witness forest. -/
def c9_wstate : ForestR := { traces := [(4, c9_wtrace)] }

/-- The C9 witness point: increment op at index 2 in trace 4. -/
def c9_wpoint : PointR := { trace := 4, inc_op := some 2 }

theorem pySliceIdx_le (n : Nat) (k : Int) : pySliceIdx n k ≤ n := by
  unfold pySliceIdx
  split
  · omega
  · split <;> omega

theorem pyTake_length (l : List α) (k : Int) :
    (pyTake l k).length = pySliceIdx l.length k := by
  simp [pyTake, List.length_take]
  exact pySliceIdx_le _ _

theorem pyDrop_length (l : List α) (k : Int) :
    (pyDrop l k).length = l.length - pySliceIdx l.length k := by
  simp [pyDrop, List.length_drop]

theorem pySliceIdx_of_ge (n : Nat) (k : Int) (h : (n : Int) ≤ k) :
    pySliceIdx n k = n := by
  unfold pySliceIdx
  split
  · omega
  · split <;> omega

theorem pySliceIdx_of_nonpos (n : Nat) (k : Int) (h : k + n ≤ 0) :
    pySliceIdx n k = 0 := by
  unfold pySliceIdx
  split
  · omega
  · split <;> omega

theorem pyTake_all (l : List α) (k : Int) (h : (l.length : Int) ≤ k) :
    pyTake l k = l := by
  rw [pyTake, pySliceIdx_of_ge _ _ h, List.take_length]

theorem pyTake_nil (l : List α) (k : Int) (h : k + l.length ≤ 0) :
    pyTake l k = [] := by
  rw [pyTake, pySliceIdx_of_nonpos _ _ h, List.take_zero]

theorem pyDrop_nil (l : List α) (k : Int) (h : (l.length : Int) ≤ k) :
    pyDrop l k = [] := by
  rw [pyDrop, pySliceIdx_of_ge _ _ h, List.drop_length]

theorem pySliceIdx_of_between (n : Nat) (k : Int) (h0 : 0 ≤ k) (h1 : k ≤ n) :
    (pySliceIdx n k : Int) = k := by
  unfold pySliceIdx
  split
  · omega
  · split <;> omega

theorem updateD_nil [DecidableEq κ] (k : κ) (f : α → α) :
    updateD ([] : List (κ × α)) k f = [] := rfl

theorem updateD_cons [DecidableEq κ] (p : κ × α) (rest : List (κ × α)) (k : κ)
    (f : α → α) :
    updateD (p :: rest) k f =
      (if p.1 = k then (p.1, f p.2) else p) :: updateD rest k f := rfl

theorem lookupD_insertD_self [DecidableEq κ] (l : List (κ × α)) (k : κ) (v : α) :
    lookupD (insertD l k v) k = some v := by
  induction l with
  | nil => simp [insertD, lookupD]
  | cons p rest ih =>
    simp only [insertD]
    by_cases hp : p.1 = k
    · rw [if_pos hp]
      simp [lookupD]
    · rw [if_neg hp]
      simp only [lookupD]
      rw [if_neg hp]
      exact ih

theorem lookupD_insertD_ne [DecidableEq κ] (l : List (κ × α)) (k k' : κ) (v : α)
    (h : k' ≠ k) : lookupD (insertD l k v) k' = lookupD l k' := by
  induction l with
  | nil => simp [insertD, lookupD, Ne.symm h]
  | cons p rest ih =>
    simp only [insertD]
    by_cases hp : p.1 = k
    · rw [if_pos hp]
      simp only [lookupD]
      rw [if_neg (Ne.symm h), if_neg (show ¬p.1 = k' by rw [hp]; exact Ne.symm h)]
    · rw [if_neg hp]
      simp only [lookupD]
      by_cases hq : p.1 = k'
      · rw [if_pos hq, if_pos hq]
      · rw [if_neg hq, if_neg hq]
        exact ih

theorem lookupD_updateD_self [DecidableEq κ] (l : List (κ × α)) (k : κ) (f : α → α) :
    lookupD (updateD l k f) k = (lookupD l k).map f := by
  induction l with
  | nil => simp [updateD, lookupD]
  | cons p rest ih =>
    rw [updateD_cons]
    by_cases hp : p.1 = k
    · rw [if_pos hp]
      simp only [lookupD]
      rw [if_pos hp, if_pos hp]
      rfl
    · rw [if_neg hp]
      simp only [lookupD]
      rw [if_neg hp, if_neg hp]
      exact ih

theorem lookupD_updateD_ne [DecidableEq κ] (l : List (κ × α)) (k k' : κ) (f : α → α)
    (h : k' ≠ k) : lookupD (updateD l k f) k' = lookupD l k' := by
  induction l with
  | nil => simp [updateD, lookupD]
  | cons p rest ih =>
    rw [updateD_cons]
    by_cases hp : p.1 = k
    · rw [if_pos hp]
      simp only [lookupD]
      rw [if_neg (show ¬p.1 = k' by rw [hp]; exact Ne.symm h),
        if_neg (show ¬p.1 = k' by rw [hp]; exact Ne.symm h)]
      exact ih
    · rw [if_neg hp]
      simp only [lookupD]
      by_cases hq : p.1 = k'
      · rw [if_pos hq, if_pos hq]
      · rw [if_neg hq, if_neg hq]
        exact ih

theorem apply_patch_time_eq (base off tv1 tv2 : Int) (buf : List Nat) (p : Patch)
    (h1 : p.time ≤ tv1) (h2 : p.time ≤ tv2) :
    apply_patch base off tv1 buf p = apply_patch base off tv2 buf p := by
  unfold apply_patch
  rw [if_neg (not_lt.mpr h1), if_neg (not_lt.mpr h2)]

theorem foldl_apply_patch_time_eq (base off tv1 tv2 T : Int) (P : List Patch)
    (buf : List Nat) (hP : ∀ p ∈ P, p.time ≤ T) (ht1 : T ≤ tv1) (ht2 : T ≤ tv2) :
    P.foldl (apply_patch base off tv1) buf = P.foldl (apply_patch base off tv2) buf := by
  induction P generalizing buf with
  | nil => rfl
  | cons p rest ih =>
    simp only [List.foldl_cons]
    rw [apply_patch_time_eq base off tv1 tv2 buf p
      (le_trans (hP p (by simp)) ht1) (le_trans (hP p (by simp)) ht2)]
    exact ih _ (fun q hq => hP q (by simp [hq]))

theorem apply_patch_length_le (base off tv : Int) (L : Nat) (buf : List Nat) (p : Patch)
    (hps : 0 ≤ patchStart base off p)
    (hin : patchStart base off p + p.content.length ≤ (L : Int))
    (hbuf : buf.length ≤ L) :
    (apply_patch base off tv buf p).length ≤ L := by
  simp only [apply_patch]
  split
  · exact hbuf
  · split <;>
    · simp only [List.length_append, pyTake_length, pyDrop_length]
      unfold pySliceIdx
      split_ifs <;> omega

theorem foldl_apply_patch_length_le (base off tv : Int) (L : Nat) (P : List Patch)
    (buf : List Nat)
    (hP : ∀ p ∈ P, 0 ≤ patchStart base off p ∧
      patchStart base off p + p.content.length ≤ (L : Int))
    (hbuf : buf.length ≤ L) :
    (P.foldl (apply_patch base off tv) buf).length ≤ L := by
  induction P generalizing buf with
  | nil => exact hbuf
  | cons p rest ih =>
    simp only [List.foldl_cons]
    exact ih _ (fun q hq => hP q (by simp [hq]))
      (apply_patch_length_le base off tv L buf p (hP p (by simp)).1 (hP p (by simp)).2 hbuf)

theorem apply_patch_beyond (base off tv : Int) (L : Nat) (buf : List Nat) (q : Patch)
    (hbuf : buf.length ≤ L)
    (hq : (L : Int) + q.content.length ≤ patchStart base off q) :
    apply_patch base off tv buf q = buf := by
  have hbL : (buf.length : Int) ≤ (L : Int) := by exact_mod_cast hbuf
  simp only [apply_patch]
  split
  · rfl
  · rw [if_pos (by omega : (buf.length : Int) ≤
      patchStart base off q + (q.content.length : Int))]
    rw [pyTake_all _ _ (by omega), pyTake_nil _ _ (by omega),
      pyDrop_nil _ _ (le_refl _)]
    simp

theorem foldl_apply_patch_beyond (base off tv : Int) (L : Nat) (extra : List Patch)
    (buf : List Nat) (hbuf : buf.length ≤ L)
    (hE : ∀ q ∈ extra, (L : Int) + q.content.length ≤ patchStart base off q) :
    extra.foldl (apply_patch base off tv) buf = buf := by
  induction extra with
  | nil => rfl
  | cons q rest ih =>
    simp only [List.foldl_cons]
    rw [apply_patch_beyond base off tv L buf q hbuf (hE q (by simp))]
    exact ih (fun r hr => hE r (by simp [hr]))

theorem insertSorted_length (x : Int) (l : List Int) :
    (insertSorted x l).length = l.length + 1 := by
  induction l with
  | nil => rfl
  | cons y ys ih =>
    simp only [insertSorted]
    split <;> simp [ih]

theorem pysort_length (l : List Int) : (pysort l).length = l.length := by
  induction l with
  | nil => rfl
  | cons x xs ih => simp [pysort, insertSorted_length, ih]

theorem iter_ranges_loop_eq (n : Nat) (tail : List Int) (pos : Nat) (f l : Int)
    (acc : List (Int × Int)) (h : pos + tail.length + 1 = n) :
    iter_ranges_loop n tail pos f l acc = coalesce_from tail f l acc := by
  induction tail generalizing pos f l acc with
  | nil => simp [iter_ranges_loop, coalesce_from]
  | cons i rest ih =>
    simp only [iter_ranges_loop, coalesce_from]
    have hlt : pos + 1 < n := by simp at h; omega
    by_cases hg : 50 < i - f
    · rw [if_pos hg, if_pos hlt, if_pos hg, ih _ _ _ _ (by simp at h ⊢; omega)]
    · rw [if_neg hg, if_neg hg, ih _ _ _ _ (by simp at h ⊢; omega)]

theorem iter_ranges_eq_firstgap (numbers : List Int) :
    iter_ranges numbers = iter_ranges_firstgap numbers := by
  unfold iter_ranges iter_ranges_firstgap
  cases h : pysort numbers with
  | nil => rfl
  | cons x rest =>
    apply iter_ranges_loop_eq
    have hl := pysort_length numbers
    rw [h] at hl
    simp at hl
    omega

/-- C2 (amended): for an instruction with core dump (off, raw) and a patch
list P whose patches are recorded at times at most T and lie fully inside
the instruction byte window (patch_start nonnegative and patch_start plus
content length at most the raw length), extending P with further patches
whose patch_start is at least the raw length PLUS their content length
(strictly beyond the window by at least the content length) and
reconstructing at any later time T2 leaves the result unchanged.  The
original claim fails for other out-of-window patches: a negative
patch_start alters the buffer through negative-index slicing. -/
theorem c2_out_of_window_extension (off : Int) (raw : List Nat) (base T T2 : Int)
    (P extra : List Patch)
    (hT : T ≤ T2)
    (hP : ∀ p ∈ P, p.time ≤ T ∧ 0 ≤ patchStart base off p ∧
      patchStart base off p + p.content.length ≤ (raw.length : Int))
    (hE : ∀ q ∈ extra, (raw.length : Int) + q.content.length ≤ patchStart base off q) :
    FlatOp_get_core_dump (off, raw) base (P ++ extra) T2 =
      FlatOp_get_core_dump (off, raw) base P T := by
  show (P ++ extra).foldl (apply_patch base off T2) raw = P.foldl (apply_patch base off T) raw
  rw [List.foldl_append]
  rw [foldl_apply_patch_time_eq base off T2 T T P raw (fun p hp => (hP p hp).1) hT (le_refl T)]
  exact foldl_apply_patch_beyond base off T2 raw.length extra _
    (foldl_apply_patch_length_le base off T raw.length P raw
      (fun p hp => ⟨(hP p hp).2.1, (hP p hp).2.2⟩) (le_refl _)) hE

/-- C1: in the end-to-end scenario, querying the core dump at time 0
returns the original unpatched bytes, as the claim states; but at time
10 the code returns 0x90 0x90 0x90 (three bytes), not the claimed
0xCC 0x90 0x90 0x90: the assignment content_end = len(content)-1 drops
the final byte of the patch content and shrinks the buffer. -/
theorem c1_core_dump_scenario :
    Trace_get_core_dump c1_trace c1_patches 0 (0, -1) = .ok (some [144, 144, 144, 144]) ∧
    Trace_get_core_dump c1_trace c1_patches 10 (0, -1) = .ok (some [144, 144, 144]) ∧
    Trace_get_core_dump c1_trace c1_patches 10 (0, -1) ≠ .ok (some [204, 144, 144, 144]) := by
  refine ⟨rfl, rfl, ?_⟩
  decide

/-- C5: with the default op_slice (0, -1) the code sets
end = len(opslice) = 2 (the length of the 2-tuple), so only the
instructions with index 0, 1 and 2 are reconstructed: on an asm stage
of four instructions the result is the concatenation of the first
three dumps, not of all four as the claim states. -/
theorem c5_default_slice_prefix :
    Trace_get_core_dump c5_trace [] (-1) (0, -1) = .ok (some [10, 11, 12]) ∧
    Trace_get_core_dump c5_trace [] (-1) (0, -1) ≠ .ok (some [10, 11, 12, 13]) := by
  refine ⟨rfl, ?_⟩
  decide

/-- C2 counterexample: the patch (time 5, addr 100, one byte 0xCC) has
patch_start -2 for an instruction at relative offset 2 — outside the
byte window in the claim's sense — yet extending the empty patch list
with it and reconstructing at time 10 changes the result (Python
negative slice indices cut the buffer). -/
theorem c2_negative_offset_refuted :
    FlatOp_get_core_dump (2, [144, 144, 144, 144]) 100 [] 0 = [144, 144, 144, 144] ∧
    patchStart 100 2 ⟨5, 100, [204]⟩ < 0 ∧
    FlatOp_get_core_dump (2, [144, 144, 144, 144]) 100 ([] ++ [⟨5, 100, [204]⟩]) 10 ≠
      [144, 144, 144, 144] := by
  decide

/-- C2 witness: a concrete in-window patch list and a concrete
beyond-the-window extension, evaluated through the theorem. -/
theorem c2_out_of_window_extension_witness :
    ((0 : Int) ≤ 5) ∧
    FlatOp_get_core_dump (0, [1, 2, 3, 4]) 0 ([⟨0, 1, [9]⟩] ++ [⟨3, 10, [7, 7]⟩]) 5 =
      FlatOp_get_core_dump (0, [1, 2, 3, 4]) 0 [⟨0, 1, [9]⟩] 0 :=
  ⟨by decide,
    c2_out_of_window_extension 0 [1, 2, 3, 4] 0 0 5 [⟨0, 1, [9]⟩] [⟨3, 10, [7, 7]⟩]
      (by decide) (by decide) (by decide)⟩

/-- C4 counterexample: on [0, 30, 60, 90] no two consecutive sorted
values differ by more than 50, so the rule stated by the claim yields a
single range, but the code closes a span whenever an element is more
than 50 above the FIRST element of the span and yields two ranges. -/
theorem c4_consecutive_gap_refuted :
    iter_ranges_consecutive [0, 30, 60, 90] = [(0, 90)] ∧
    iter_ranges [0, 30, 60, 90] = [(0, 30), (60, 90)] ∧
    iter_ranges [0, 30, 60, 90] ≠ iter_ranges_consecutive [0, 30, 60, 90] := by
  decide

/-- C4 (amended): iter_ranges sorts its input and closes the current
span exactly when the next sorted value is more than the gap threshold
50 above the FIRST value of the current span, flushing the final span
at the end; on [5, 6, 7, 200, 201] it yields exactly [5,7] and
[200,201], on an empty list no ranges, and on [42] the range [42,42]. -/
theorem c4_iter_ranges_behavior :
    (∀ numbers : List Int, iter_ranges numbers = iter_ranges_firstgap numbers) ∧
    iter_ranges [5, 6, 7, 200, 201] = [(5, 7), (200, 201)] ∧
    iter_ranges [] = [] ∧
    iter_ranges [42] = [(42, 42)] := by
  refine ⟨iter_ranges_eq_firstgap, ?_, rfl, rfl⟩
  decide

/-- C6 counterexample: adding a trace with a unique_id that is already
present does not fail — the call returns a fresh trace and silently
replaces the registry entry for that id. -/
theorem c6_duplicate_id_refuted :
    (lookupD c6_state.traces 7).isSome ∧
    (ForestR.add_trace c6_state .loop 7 0).2.stamp = 1 ∧
    lookupD (ForestR.add_trace c6_state .loop 7 0).1.traces 7 =
      some (ForestR.add_trace c6_state .loop 7 0).2 ∧
    lookupD (ForestR.add_trace c6_state .loop 7 0).1.traces 7 ≠ some c6_old := by
  decide

/-- C6 (amended): add_trace performs no duplicate check: for every
unique_id, fresh or already present, it creates a trace stamped with
the current trace count and registers it under that id, replacing any
previous binding. -/
theorem c6_add_trace_registers (s : ForestR) (ty : TraceType) (uid : Nat) (nmr : Int) :
    (ForestR.add_trace s ty uid nmr).2.stamp = s.traces.length ∧
    (ForestR.add_trace s ty uid nmr).2.unique_id = uid ∧
    lookupD (ForestR.add_trace s ty uid nmr).1.traces uid =
      some (ForestR.add_trace s ty uid nmr).2 := by
  refine ⟨rfl, rfl, ?_⟩
  exact lookupD_insertD_self _ _ _

/-- C3 counterexample: after registering (100, 200) for trace 1,
registering (150, 250) for trace 2 succeeds and is entered into the
address index although its start 150 lies inside the range of trace 1;
the two registered ranges intersect. -/
theorem c3_overlap_refuted :
    (ForestR.set_addr_bounds c3_state 1 100 200).2 = none ∧
    (ForestR.set_addr_bounds (ForestR.set_addr_bounds c3_state 1 100 200).1 2 150 250).2 = none ∧
    lookupD (ForestR.set_addr_bounds (ForestR.set_addr_bounds c3_state 1 100 200).1 2 150 250).1.addrs 150 = some 2 ∧
    (lookupD (ForestR.set_addr_bounds (ForestR.set_addr_bounds c3_state 1 100 200).1 2 150 250).1.traces 1).map TraceR.addrs = some (100, 200) ∧
    (lookupD (ForestR.set_addr_bounds (ForestR.set_addr_bounds c3_state 1 100 200).1 2 150 250).1.traces 2).map TraceR.addrs = some (150, 250) ∧
    ((100 : Int) ≤ 150 ∧ (150 : Int) ≤ 200) := by
  decide

/-- C3 (amended): set_addr_bounds fails exactly when the new start
address is already a key of the address index, that is, equals the
registered START of some other range; the failure leaves the index
unregistered, and a fresh start address is registered even when the
new range overlaps an existing one. -/
theorem c3_addr_bounds_start_collision (s : ForestR) (tid : Nat) (a b : Int) :
    ((ForestR.set_addr_bounds s tid a b).2.isSome ↔ (lookupD s.addrs a).isSome) ∧
    ((lookupD s.addrs a).isSome → (ForestR.set_addr_bounds s tid a b).1.addrs = s.addrs) ∧
    ((lookupD s.addrs a).isNone → (ForestR.set_addr_bounds s tid a b).2 = none ∧
      lookupD (ForestR.set_addr_bounds s tid a b).1.addrs a = some tid) := by
  unfold ForestR.set_addr_bounds
  by_cases h : (lookupD s.addrs a).isSome
  · simp [h]
    exact Option.isSome_iff_ne_none.mp h
  · simp [h, lookupD_insertD_self]

/-- C3 witness: a colliding start address at a concrete state. -/
theorem c3_addr_bounds_start_collision_witness :
    (ForestR.set_addr_bounds c3_wstate 2 100 300).2.isSome ∧
    (ForestR.set_addr_bounds c3_wstate 2 100 300).1.addrs = c3_wstate.addrs :=
  ⟨(c3_addr_bounds_start_collision c3_wstate 2 100 300).1.mpr (by decide),
   (c3_addr_bounds_start_collision c3_wstate 2 100 300).2.1 (by decide)⟩

/-- C10: when the start address is already registered, set_addr_bounds
raises after having already overwritten the addrs field of the trace
itself; the forest address index is unchanged but the trace records
the new bounds — the failure is not atomic for the trace state. -/
theorem c10_set_addr_bounds_nonatomic (s : ForestR) (tid : Nat) (a b : Int) (t0 : TraceR)
    (h1 : lookupD s.traces tid = some t0)
    (h2 : (lookupD s.addrs a).isSome) :
    (ForestR.set_addr_bounds s tid a b).2 = some PyErr.notImplemented ∧
    (ForestR.set_addr_bounds s tid a b).1.addrs = s.addrs ∧
    lookupD (ForestR.set_addr_bounds s tid a b).1.traces tid =
      some { t0 with addrs := (a, b) } := by
  unfold ForestR.set_addr_bounds
  rw [if_pos h2]
  refine ⟨rfl, rfl, ?_⟩
  rw [lookupD_updateD_self, h1]
  rfl

/-- C10 witness: the non-atomic failure at a concrete state. -/
theorem c10_set_addr_bounds_nonatomic_witness :
    (ForestR.set_addr_bounds c10_wstate 3 50 60).2 = some PyErr.notImplemented ∧
    (ForestR.set_addr_bounds c10_wstate 3 50 60).1.addrs = c10_wstate.addrs ∧
    lookupD (ForestR.set_addr_bounds c10_wstate 3 50 60).1.traces 3 =
      some { unique_id := 3, ttype := .bridge, addrs := (50, 60) } :=
  c10_set_addr_bounds_nonatomic c10_wstate 3 50 60
    { unique_id := 3, ttype := .bridge } rfl (by decide)

theorem stitch_bridge_eq_nopoint (s : ForestR) (d a : Int) (bid : Nat)
    (bridge : TraceR)
    (h1 : lookupD s.addrs a = some bid)
    (h2 : lookupD s.traces bid = some bridge)
    (h3 : bridge.descr_nmr = 0)
    (hpt : lookupD s.points d = none) :
    ForestR.stitch_bridge s d a =
      ({ s with traces := updateD s.traces bid (fun t => { t with descr_nmr := d }),
                stitches := insertD s.stitches d bridge.unique_id }, none) := by
  simp [ForestR.stitch_bridge, h1, h2, h3, hpt]

theorem stitch_bridge_eq_point (s : ForestR) (d a : Int) (bid : Nat)
    (bridge : TraceR) (pt : PointR)
    (h1 : lookupD s.addrs a = some bid)
    (h2 : lookupD s.traces bid = some bridge)
    (h3 : bridge.descr_nmr = 0)
    (hpt : lookupD s.points d = some pt) :
    ForestR.stitch_bridge s d a =
      ({ s with
          traces := updateD (updateD (updateD s.traces bid
            (fun t => { t with descr_nmr := d })) bid
            (fun t => { t with parent := some pt.trace })) pt.trace
            (fun t => { t with bridges := t.bridges ++ [bid] }),
          stitches := insertD s.stitches d bridge.unique_id }, none) := by
  simp [ForestR.stitch_bridge, h1, h2, h3, hpt]

/-- C7: when a PointInTrace is registered for the descr number and the
bridge at addr_to has never been stitched, stitch_bridge succeeds, sets
the bridge descr_nmr, sets the bridge parent to the owning trace of the
point, records descr -> bridge unique id in the stitch table, and
appends the bridge exactly once to the parent bridges list. -/
theorem c7_stitch_bridge_links (s : ForestR) (d a : Int) (bid : Nat)
    (bridge par : TraceR) (pt : PointR)
    (h1 : lookupD s.addrs a = some bid)
    (h2 : lookupD s.traces bid = some bridge)
    (h3 : bridge.descr_nmr = 0)
    (h4 : lookupD s.points d = some pt)
    (h5 : lookupD s.traces pt.trace = some par) :
    (ForestR.stitch_bridge s d a).2 = none ∧
    (lookupD (ForestR.stitch_bridge s d a).1.traces bid).map TraceR.descr_nmr = some d ∧
    (lookupD (ForestR.stitch_bridge s d a).1.traces bid).map TraceR.parent =
      some (some pt.trace) ∧
    lookupD (ForestR.stitch_bridge s d a).1.stitches d = some bridge.unique_id ∧
    (lookupD (ForestR.stitch_bridge s d a).1.traces pt.trace).map TraceR.bridges =
      some (par.bridges ++ [bid]) := by
  rw [stitch_bridge_eq_point s d a bid bridge pt h1 h2 h3 h4]
  dsimp only
  refine ⟨rfl, ?_, ?_, lookupD_insertD_self _ _ _, ?_⟩
  · by_cases hbp : pt.trace = bid
    · rw [hbp, lookupD_updateD_self, lookupD_updateD_self, lookupD_updateD_self, h2]
      rfl
    · rw [lookupD_updateD_ne _ _ _ _ (fun hh => hbp hh.symm),
        lookupD_updateD_self, lookupD_updateD_self, h2]
      rfl
  · by_cases hbp : pt.trace = bid
    · rw [hbp, lookupD_updateD_self, lookupD_updateD_self, lookupD_updateD_self, h2]
      rfl
    · rw [lookupD_updateD_ne _ _ _ _ (fun hh => hbp hh.symm),
        lookupD_updateD_self, lookupD_updateD_self, h2]
      rfl
  · rw [lookupD_updateD_self]
    by_cases hbp : pt.trace = bid
    · have hpb : par = bridge := by
        rw [hbp, h2] at h5
        exact (Option.some.inj h5).symm
      subst hpb
      rw [hbp, lookupD_updateD_self, lookupD_updateD_self, h2]
      rfl
    · rw [lookupD_updateD_ne _ _ _ _ hbp, lookupD_updateD_ne _ _ _ _ hbp, h5]
      rfl

/-- C7 witness: the stitch at a concrete forest. -/
theorem c7_stitch_bridge_links_witness :
    (ForestR.stitch_bridge c7_wstate 42 700).2 = none ∧
    (lookupD (ForestR.stitch_bridge c7_wstate 42 700).1.traces 10).map TraceR.descr_nmr =
      some 42 ∧
    (lookupD (ForestR.stitch_bridge c7_wstate 42 700).1.traces 10).map TraceR.parent =
      some (some 11) ∧
    lookupD (ForestR.stitch_bridge c7_wstate 42 700).1.stitches 42 = some 10 ∧
    (lookupD (ForestR.stitch_bridge c7_wstate 42 700).1.traces 11).map TraceR.bridges =
      some ([] ++ [10]) :=
  c7_stitch_bridge_links c7_wstate 42 700 10 c7_wbridge c7_wparent
    { trace := 11 } rfl rfl rfl rfl rfl

/-- C8: the first stitch of a bridge whose descr_nmr is still 0
succeeds (whether or not a point is registered); a second stitch that
resolves to the same trace fails the assertion, because the first
stitch stored a non-zero descr number on it. -/
theorem c8_stitch_bridge_second_fails (s : ForestR) (d d2 a : Int) (bid : Nat)
    (bridge : TraceR)
    (h1 : lookupD s.addrs a = some bid)
    (h2 : lookupD s.traces bid = some bridge)
    (h3 : bridge.descr_nmr = 0)
    (hd : d ≠ 0) :
    (ForestR.stitch_bridge s d a).2 = none ∧
    (ForestR.stitch_bridge (ForestR.stitch_bridge s d a).1 d2 a).2 =
      some PyErr.assertionFailed := by
  have key : (ForestR.stitch_bridge s d a).2 = none ∧
      (ForestR.stitch_bridge s d a).1.addrs = s.addrs ∧
      (lookupD (ForestR.stitch_bridge s d a).1.traces bid).map TraceR.descr_nmr = some d := by
    cases hpt : lookupD s.points d with
    | none =>
      rw [stitch_bridge_eq_nopoint s d a bid bridge h1 h2 h3 hpt]
      dsimp only
      refine ⟨rfl, rfl, ?_⟩
      rw [lookupD_updateD_self, h2]
      rfl
    | some pt =>
      rw [stitch_bridge_eq_point s d a bid bridge pt h1 h2 h3 hpt]
      dsimp only
      refine ⟨rfl, rfl, ?_⟩
      by_cases hbp : pt.trace = bid
      · rw [hbp, lookupD_updateD_self, lookupD_updateD_self, lookupD_updateD_self, h2]
        rfl
      · rw [lookupD_updateD_ne _ _ _ _ (fun hh => hbp hh.symm),
          lookupD_updateD_self, lookupD_updateD_self, h2]
        rfl
  refine ⟨key.1, ?_⟩
  obtain ⟨-, haddr, hdescr⟩ := key
  set s2 := (ForestR.stitch_bridge s d a).1 with hs2
  cases hb2 : lookupD s2.traces bid with
  | none => rw [hb2] at hdescr; simp at hdescr
  | some b2 =>
    rw [hb2] at hdescr
    have hb2d : b2.descr_nmr = d := by simpa using hdescr
    have ha2 : lookupD s2.addrs a = some bid := by rw [haddr]; exact h1
    simp [ForestR.stitch_bridge, ha2, hb2, hb2d, hd]

/-- C8 witness: stitching twice at a concrete forest. -/
theorem c8_stitch_bridge_second_fails_witness :
    (ForestR.stitch_bridge c8_wstate 13 900).2 = none ∧
    (ForestR.stitch_bridge (ForestR.stitch_bridge c8_wstate 13 900).1 77 900).2 =
      some PyErr.assertionFailed :=
  c8_stitch_bridge_second_fails c8_wstate 13 77 900 5
    { unique_id := 5, ttype := .bridge } rfl rfl rfl (by decide)

/-- C9: add_up_enter_count on a point with no attached increment op
returns False and leaves the state unchanged; with an increment op
attached, repeated calls accumulate additively into the owning traces
point_counters under the increment op index: counts 3 then 4 leave a
stored total of 7. -/
theorem c9_add_up_enter_count (s : ForestR) (pit : PointR) :
    (pit.inc_op = none → ∀ cnt : Int, PointR.add_up_enter_count s pit cnt = (false, s)) ∧
    (∀ (i : Nat) (t : TraceR), pit.inc_op = some i →
      lookupD s.traces pit.trace = some t →
      lookupD t.point_counters i = none →
      (PointR.add_up_enter_count s pit 3).1 = true ∧
      (PointR.add_up_enter_count (PointR.add_up_enter_count s pit 3).2 pit 4).1 = true ∧
      (lookupD (PointR.add_up_enter_count
          (PointR.add_up_enter_count s pit 3).2 pit 4).2.traces pit.trace).map
        (fun tr => lookupD tr.point_counters i) = some (some 7)) := by
  constructor
  · intro h cnt
    simp [PointR.add_up_enter_count, h]
  · intro i t hi ht hc
    simp [PointR.add_up_enter_count, hi, ht, hc, lookupD_insertD_self]

/-- C9 witness: counting 3 then 4 stores 7 at a concrete forest. -/
theorem c9_add_up_enter_count_witness :
    (PointR.add_up_enter_count c9_wstate c9_wpoint 3).1 = true ∧
    (PointR.add_up_enter_count (PointR.add_up_enter_count c9_wstate c9_wpoint 3).2
      c9_wpoint 4).1 = true ∧
    (lookupD (PointR.add_up_enter_count
        (PointR.add_up_enter_count c9_wstate c9_wpoint 3).2 c9_wpoint 4).2.traces 4).map
      (fun tr => lookupD tr.point_counters 2) = some (some 7) :=
  (c9_add_up_enter_count c9_wstate c9_wpoint).2 2 c9_wtrace rfl rfl rfl
